import Mathlib

/-!
Verification of the error-diagnostic module `src/ast_pass/error.rs` of
juniper-from-schema.

The module renders compiler-style diagnostics for schema errors.  We embed:

* `Pos` — 1-based line/column position (from the `graphql_parser` crate;
  two `usize` fields `line`, `column`, with derived lexicographic `Ord`).
* `ErrorKind` — the closed taxonomy of error variants (payloads are `&str`
  in the source, embedded as `String`), with `description` and `notes`.
* `Error` — position + kind + borrowed raw schema text.
* the `Display` implementation, embedded as `renderLines`, which produces
  the list of output lines (each `writeln!` of the source appends one line
  terminated by a newline; the full output is the concatenation of the
  lines with a trailing newline each).  The two slice/`usize` failure
  points of the source (indexing `schema_lines[pos.line - 1]`, and the
  unsigned subtractions `pos.line - 1` / `pos.column - 1`, which panic on
  underflow or out-of-range index) are modelled by returning `none`.
* the helpers `Indent::indent` and `number_of_digits`.

Terminal colouring (`colored::bright_red`) only wraps text in ANSI escape
sequences when colouring is active; we model the uncoloured text.
-/

namespace AstPassError

/-- `graphql_parser::Pos`: 1-based `line` and `column` (`usize` fields).
External dependency of the module, modelled from the spec (§3): both are
non-negative integers, intended invariant `≥ 1`; its derived `Ord` is
lexicographic on `(line, column)` in field order. -/
structure Pos where
  line : Nat
  column : Nat
deriving DecidableEq

/-- The closed `ErrorKind` taxonomy, variants in source declaration order
(`error.rs` lines 62–83).  `&'doc str` payloads become `String`.
`UnionFieldTypeMismatch` fields in source order: `union_name`,
`field_name`, `type_a`, `field_type_a`, `type_b`, `field_type_b`. -/
inductive ErrorKind where
  | DateTimeScalarNotDefined
  | DateScalarNotDefined
  | DirectivesNotSupported
  | NoQueryType
  | NonnullableFieldWithDefaultValue
  | NullDefaultValue
  | ObjectArgumentWithDefaultValue
  | SubscriptionsNotSupported
  | TypeExtensionNotSupported
  | UnionFieldTypeMismatch (union_name field_name type_a field_type_a type_b field_type_b :
      String)
  | UnsupportedAttribute (attr : String)
  | UnsupportedAttributePair (attr value : String)
  | VariableDefaultValue
deriving DecidableEq

/-- `Error<'doc>`: position, kind, and the borrowed raw schema text. -/
structure Error where
  pos : Pos
  kind : ErrorKind
  raw_schema : String
deriving DecidableEq

/-- `Indent::indent` for `&str` (`error.rs` lines 153–166): if `size == 0`
return the string unchanged; otherwise push `size` spaces (the source loop
`for _ in 0..size { out.push(' ') }`, i.e. `List.replicate size ' '`) and
then the string. -/
def Indent.indent (s : String) (size : Nat) : String :=
  if size = 0 then s
  else String.mk (List.replicate size ' ') ++ s

/-- `number_of_digits` (`error.rs` lines 168–175): `1` for `0`, otherwise
`f64::floor(f64::log10(n as f64)) as usize + 1`, which the source computes
in IEEE double precision through the platform libm, whose rounding Rust
does not specify.  This embedding idealises the logarithm as exact
(`⌊log₁₀ n⌋ = Nat.log 10 n` for `n ≥ 1`) and takes the input as a `Nat`
(the only caller passes `pos.line as i32`, a cast that wraps for lines
`≥ 2³¹`; such line numbers are not modelled).  The idealisation serves
solely to size the diagnostic gutter in `renderLines`, whose layout
properties are about how the width is used, not its floating-point
computation; the libm rounding behaviour itself is not modelled here. -/
def number_of_digits (n : Nat) : Nat :=
  if n = 0 then 1
  else Nat.log 10 n + 1

/-- Helper for `rustLines`: Rust's `str::lines` strips a `'\r'` that
immediately precedes the terminating `'\n'`.  The accumulator passed to
`linesAux` is reversed, so the candidate `'\r'` is its head. -/
def stripCR : List Char → List Char
  | '\r' :: t => t
  | l => l

/-- Worker for `rustLines`: split at each `'\n'` (stripping a preceding
`'\r'`); the accumulator holds the current chunk reversed. -/
def linesAux : List Char → List Char → List String
  | [], acc => [String.mk acc.reverse]
  | '\n' :: rest, acc => String.mk (stripCR acc).reverse :: linesAux rest []
  | c :: rest, acc => linesAux rest (c :: acc)

/-- Rust's `str::lines`: split at line endings (`"\n"` or `"\r\n"`), with
the final line ending optional — equivalently, split at every `'\n'` and
drop a final empty chunk (so `""` has no lines and a trailing newline adds
no empty line). -/
def rustLines (s : String) : List String :=
  let parts := linesAux s.data []
  if parts.getLast? = some "" then parts.dropLast else parts

/-- `ErrorKind::description` (`error.rs` lines 86–118), message text
verbatim; `format!` interpolation becomes string concatenation. -/
def description : ErrorKind → String
  | .DateTimeScalarNotDefined =>
      "You have to define a custom scalar called `DateTime` to use this type"
  | .DateScalarNotDefined =>
      "You have to define a custom scalar called `Date` to use this type"
  | .DirectivesNotSupported => "Directives are currently not supported"
  | .SubscriptionsNotSupported => "Subscriptions are currently not supported"
  | .NoQueryType => "Schema doesn't have root a Query type"
  | .NonnullableFieldWithDefaultValue =>
      "Fields with default arguments values must be nullable"
  | .UnsupportedAttribute attr =>
      "The attribute " ++ attr ++ " is unsupported"
  | .UnsupportedAttributePair attr value =>
      "Unsupported attribute value '" ++ value ++ "' for attribute '" ++ attr ++ "'"
  | .ObjectArgumentWithDefaultValue =>
      "Default arguments where the type is an object is currently not supported"
  | .NullDefaultValue =>
      "Having a default argument value of `null` is not supported. Use a nullable type instead"
  | .VariableDefaultValue => "Default arguments cannot refer to variables"
  | .TypeExtensionNotSupported => "Type extentions are not supported"
  | .UnionFieldTypeMismatch union_name _ _ _ _ _ =>
      "Error while generating `QueryTrail` for union `" ++ union_name ++ "`"

/-- `ErrorKind::notes` (`error.rs` lines 121–146).  For the union variant
the source builds the text with five `writeln!` calls; each call appends
its formatted chunks followed by a separate newline, reproduced here chunk
by chunk (so the string ends with a newline). -/
def notes : ErrorKind → Option String
  | .SubscriptionsNotSupported => some
      ("Subscriptions are currently not supported by Juniper so we're unsure when\nor if we'll support them")
  | .UnionFieldTypeMismatch union_name field_name type_a field_type_a type_b field_type_b =>
      some
        ("`" ++ type_a ++ "." ++ field_name ++ "` and `" ++ type_b ++ "." ++ field_name ++
          "` are not the same type" ++ "\n" ++
        "    `" ++ type_a ++ "." ++ field_name ++ "` is of type `" ++ field_type_a ++ "`" ++ "\n" ++
        "    `" ++ type_b ++ "." ++ field_name ++ "` is of type `" ++ field_type_b ++ "`" ++ "\n" ++
        "That makes it impossible to generate code for the method `QueryTrail<_, " ++
          union_name ++ ", _>::" ++ field_name ++ "()`" ++ "\n" ++
        "It would have to return `" ++ field_type_a ++ "` if `" ++ union_name ++ "` is `" ++
          type_a ++ ",` but `" ++ field_type_b ++ "` if it is a `" ++ type_b ++ "`" ++ "\n")
  | .DateTimeScalarNotDefined => some "Insert `scalar DateTime` into your schema"
  | .DateScalarNotDefined => some "Insert `scalar Date` into your schema"
  | _ => none

/-- A string of `k` spaces (specification-side normal form of the gutter
padding produced by `Indent.indent ""`). -/
def spaces (k : Nat) : String :=
  String.mk (List.replicate k ' ')

/-- The `Display` implementation (`error.rs` lines 12–59) as the list of
output lines, one entry per `writeln!` (the notes loop contributes one
blank line plus one entry per note line).  Failure points of the source —
the `usize` subtractions `pos.line - 1` / `pos.column - 1`, which panic on
underflow when the field is `0`, and the slice index
`schema_lines[pos.line - 1]`, which panics out of range — are modelled as
`none`, in source evaluation order. -/
def renderLines (e : Error) : Option (List String) :=
  let schema_lines := rustLines e.raw_schema
  let w := number_of_digits e.pos.line
  if e.pos.line = 0 then none
  else
    match schema_lines.get? (e.pos.line - 1) with
    | none => none
    | some srcLine =>
      if e.pos.column = 0 then none
      else some
        (["error: " ++ description e.kind,
          Indent.indent "" (w - 1) ++ " --> schema:" ++ toString e.pos.line ++ ":" ++
            toString e.pos.column,
          Indent.indent "" w ++ " |",
          toString e.pos.line ++ " |" ++ Indent.indent srcLine 4,
          Indent.indent "" w ++ " |" ++ Indent.indent "" (e.pos.column - 1 + 4) ++ "^"] ++
        match notes e.kind with
        | none => []
        | some n => [""] ++ rustLines n)

/-- `Indent.indent` in spaces-append normal form. -/
theorem indent_eq (s : String) (k : Nat) : Indent.indent s k = spaces k ++ s := by
  unfold Indent.indent spaces
  split
  · rename_i h
    subst h
    apply String.ext
    simp
  · rfl

/-- C9. For every string `s`, `indent s 0 = s`; and for every `k ≥ 0`,
`indent s k` has length `len s + k` and consists of exactly `k` space
characters followed by `s`. -/
theorem indent_spec :
    ∀ (s : String) (k : Nat),
      Indent.indent s 0 = s ∧
      (Indent.indent s k).length = s.length + k ∧
      Indent.indent s k = spaces k ++ s := by
  intro s k
  refine ⟨by simp [Indent.indent], ?_, indent_eq s k⟩
  rw [indent_eq]
  simp [spaces]
  omega

/-- Successful rendering in normal form: when neither `usize` subtraction
underflows and the source line fetch succeeds, `renderLines` returns the
five layout lines followed by the optional notes block. -/
theorem renderLines_eq (e : Error) (src : String)
    (hl0 : e.pos.line ≠ 0)
    (hsrc : (rustLines e.raw_schema).get? (e.pos.line - 1) = some src)
    (hc0 : e.pos.column ≠ 0) :
    renderLines e = some
      (["error: " ++ description e.kind,
        spaces (number_of_digits e.pos.line - 1) ++ " --> schema:" ++ toString e.pos.line ++
          ":" ++ toString e.pos.column,
        spaces (number_of_digits e.pos.line) ++ " |",
        toString e.pos.line ++ " |" ++ (spaces 4 ++ src),
        spaces (number_of_digits e.pos.line) ++ " |" ++ spaces (e.pos.column - 1 + 4) ++ "^"] ++
      match notes e.kind with
      | none => []
      | some n => [""] ++ rustLines n) := by
  simp only [renderLines, hsrc, if_neg hl0, if_neg hc0, indent_eq, String.append_empty,
    String.empty_append]

/-- C2. A position whose line number exceeds the number of source lines
does not render a truncated or incorrect diagnostic: fetching the source
line at index `position.line - 1` fails and rendering yields no output
(`none`); conversely, under the precondition
`1 ≤ position.line ≤ number_of_lines` (and a valid column) the fetch
succeeds and rendering produces output. -/
theorem render_line_out_of_range_fails :
    (∀ e : Error, (rustLines e.raw_schema).length < e.pos.line → renderLines e = none) ∧
    (∀ e : Error, 1 ≤ e.pos.line → e.pos.line ≤ (rustLines e.raw_schema).length →
      1 ≤ e.pos.column → (renderLines e).isSome = true) := by
  constructor
  · intro e hover
    unfold renderLines
    dsimp only
    split
    · rfl
    · rename_i hl0
      have hnone : (rustLines e.raw_schema).get? (e.pos.line - 1) = none := by
        apply List.get?_eq_none.mpr
        omega
      rw [hnone]
  · intro e hl hr hc
    have hlt : e.pos.line - 1 < (rustLines e.raw_schema).length := by omega
    obtain ⟨src, hsrc⟩ : ∃ src, (rustLines e.raw_schema).get? (e.pos.line - 1) = some src :=
      ⟨_, List.get?_eq_get hlt⟩
    rw [renderLines_eq e src (by omega) hsrc (by omega)]
    rfl

/-- Witness for C2 at a two-line schema and `line = 5` (out of range), plus
the in-range success at `line = 2`. -/
theorem render_line_out_of_range_fails_witness :
    renderLines ⟨⟨5, 1⟩, .NoQueryType, "a\nb"⟩ = none ∧
    (renderLines ⟨⟨2, 1⟩, .NoQueryType, "a\nb"⟩).isSome = true :=
  ⟨render_line_out_of_range_fails.1 ⟨⟨5, 1⟩, .NoQueryType, "a\nb"⟩ (by decide),
   render_line_out_of_range_fails.2 ⟨⟨2, 1⟩, .NoQueryType, "a\nb"⟩ (by decide) (by decide)
     (by decide)⟩

/-- C10. For every `Error` whose position has `column = 0` (violating the
`Position` invariant `column ≥ 1`), rendering fails — the `usize`
subtraction `column - 1` in the caret-line computation underflows (modelled
as `none`) — rather than rendering a diagnostic with the caret at or before
the content region; the renderer performs no validating check on `column`. -/
theorem column_zero_underflow :
    ∀ e : Error, e.pos.column = 0 → renderLines e = none := by
  intro e hc
  unfold renderLines
  dsimp only
  split
  · rfl
  · cases hget : (rustLines e.raw_schema).get? (e.pos.line - 1) with
    | none => rfl
    | some src => simp [hc]

/-- Witness for C10: a schema with a valid line but `column = 0`. -/
theorem column_zero_underflow_witness :
    renderLines ⟨⟨1, 0⟩, .NoQueryType, "a\nb"⟩ = none :=
  column_zero_underflow ⟨⟨1, 0⟩, .NoQueryType, "a\nb"⟩ rfl

/-- C3. For every `Error` with column `c ≥ 1` and line in range, the caret
line (output line 5) is the gutter-width padding, the vertical bar (the
source writes the bar with one leading space, `" |"`), then exactly
`c - 1 + 4` spaces, then a single caret: the caret sits at character offset
`c - 1 + 4` from the start of the content region after the bar. -/
theorem caret_line_layout :
    ∀ e : Error, 1 ≤ e.pos.line → e.pos.line ≤ (rustLines e.raw_schema).length →
      1 ≤ e.pos.column →
      ∃ ls, renderLines e = some ls ∧
        ls.get? 4 = some (spaces (number_of_digits e.pos.line) ++ " |" ++
          spaces (e.pos.column - 1 + 4) ++ "^") := by
  intro e hl hr hc
  have hlt : e.pos.line - 1 < (rustLines e.raw_schema).length := by omega
  obtain ⟨src, hsrc⟩ : ∃ src, (rustLines e.raw_schema).get? (e.pos.line - 1) = some src :=
    ⟨_, List.get?_eq_get hlt⟩
  exact ⟨_, renderLines_eq e src (by omega) hsrc (by omega), rfl⟩

/-- Witness for C3: line 2, column 5 of a two-line schema; the caret line
is 1 space of gutter, the bar, then 5 - 1 + 4 = 8 spaces, then the caret. -/
theorem caret_line_layout_witness :
    ∃ ls, renderLines ⟨⟨2, 5⟩, .DirectivesNotSupported, "ab\ncdefgh"⟩ = some ls ∧
      ls.get? 4 = some (spaces (number_of_digits 2) ++ " |" ++ spaces (5 - 1 + 4) ++ "^") :=
  caret_line_layout ⟨⟨2, 5⟩, .DirectivesNotSupported, "ab\ncdefgh"⟩ (by decide) (by decide)
    (by decide)

/-- C4. In every rendered diagnostic, the location line (output line 2,
`" --> schema:<line>:<col>"`) is preceded by exactly gutter-width-minus-one
spaces, while the blank gutter line (output line 3) and the caret line
(output line 5) are padded with the full gutter width, where the gutter
width is `number_of_digits position.line` (which is never less than 1).
The width−1 / width asymmetry is preserved exactly. -/
theorem gutter_padding_asymmetry :
    ∀ e : Error, 1 ≤ e.pos.line → e.pos.line ≤ (rustLines e.raw_schema).length →
      1 ≤ e.pos.column →
      1 ≤ number_of_digits e.pos.line ∧
      ∃ ls, renderLines e = some ls ∧
        ls.get? 1 = some (spaces (number_of_digits e.pos.line - 1) ++ " --> schema:" ++
          toString e.pos.line ++ ":" ++ toString e.pos.column) ∧
        ls.get? 2 = some (spaces (number_of_digits e.pos.line) ++ " |") ∧
        ls.get? 4 = some (spaces (number_of_digits e.pos.line) ++ " |" ++
          spaces (e.pos.column - 1 + 4) ++ "^") := by
  intro e hl hr hc
  have hw : 1 ≤ number_of_digits e.pos.line := by
    unfold number_of_digits
    split <;> omega
  have hlt : e.pos.line - 1 < (rustLines e.raw_schema).length := by omega
  obtain ⟨src, hsrc⟩ : ∃ src, (rustLines e.raw_schema).get? (e.pos.line - 1) = some src :=
    ⟨_, List.get?_eq_get hlt⟩
  exact ⟨hw, _, renderLines_eq e src (by omega) hsrc (by omega), rfl, rfl, rfl⟩

/-- Witness for C4 at a 12-line schema, line 12 (gutter width 2): the
location line gets 1 space of padding, the blank gutter and caret lines 2. -/
theorem gutter_padding_asymmetry_witness :
    1 ≤ number_of_digits 12 ∧
    ∃ ls, renderLines ⟨⟨12, 3⟩, .NoQueryType, "a\nb\nc\nd\ne\nf\ng\nh\ni\nj\nk\nlm"⟩ =
        some ls ∧
      ls.get? 1 = some (spaces (number_of_digits 12 - 1) ++ " --> schema:" ++ toString 12 ++
        ":" ++ toString 3) ∧
      ls.get? 2 = some (spaces (number_of_digits 12) ++ " |") ∧
      ls.get? 4 = some (spaces (number_of_digits 12) ++ " |" ++ spaces (3 - 1 + 4) ++ "^") :=
  gutter_padding_asymmetry ⟨⟨12, 3⟩, .NoQueryType, "a\nb\nc\nd\ne\nf\ng\nh\ni\nj\nk\nlm"⟩
    (by decide) (by decide) (by decide)

/-- C7. For every `Error` whose line is within range, the fourth output
line is the line number, the vertical bar (written `" |"`), then exactly 4
spaces, then the text of the source line at `position.line` (1-based)
reproduced verbatim. -/
theorem source_line_rendered_verbatim :
    ∀ (e : Error) (src : String), 1 ≤ e.pos.line →
      (rustLines e.raw_schema).get? (e.pos.line - 1) = some src →
      1 ≤ e.pos.column →
      ∃ ls, renderLines e = some ls ∧
        ls.get? 3 = some (toString e.pos.line ++ " |" ++ (spaces 4 ++ src)) := by
  intro e src hl hsrc hc
  exact ⟨_, renderLines_eq e src (by omega) hsrc (by omega), rfl⟩

/-- Witness for C7: line 2 of `"ab\ncdefgh"` is `"cdefgh"`, reproduced
verbatim after the bar and 4 spaces. -/
theorem source_line_rendered_verbatim_witness :
    ∃ ls, renderLines ⟨⟨2, 1⟩, .DateScalarNotDefined, "ab\ncdefgh"⟩ = some ls ∧
      ls.get? 3 = some (toString 2 ++ " |" ++ (spaces 4 ++ "cdefgh")) :=
  source_line_rendered_verbatim ⟨⟨2, 1⟩, .DateScalarNotDefined, "ab\ncdefgh"⟩ "cdefgh"
    (by decide) (by decide) (by decide)

/-- The `&str` payload fields of a variant, in source declaration order
(used both for message well-formedness hypotheses and as the tiebreak part
of the derived ordering). -/
def ErrorKind.payloads : ErrorKind → List String
  | .UnionFieldTypeMismatch u f ta fta tb ftb => [u, f, ta, fta, tb, ftb]
  | .UnsupportedAttribute a => [a]
  | .UnsupportedAttributePair a v => [a, v]
  | _ => []

/-- Payloads are interpolated verbatim, so single-line-ness of the messages
is relative to newline-free payloads (GraphQL identifiers and type names
never contain newlines). -/
abbrev payloadNewlineFree (k : ErrorKind) : Prop :=
  ∀ s ∈ k.payloads, '\n' ∉ s.data

/-- The first line of the string is not blank: the string does not start
with a newline character. -/
abbrev noLeadingBlankLine (s : String) : Prop :=
  s.data.head? ≠ some '\n'

/-- The last line of the string is not blank: under Rust's `str::lines`
(where a single final newline merely terminates the last line), a trailing
blank line exists exactly when the string ends in two consecutive
newlines. -/
abbrev noTrailingBlankLine (s : String) : Prop :=
  s.data.reverse.head? = some '\n' → s.data.reverse.tail.head? ≠ some '\n'

/-- A string ending in a backquote then a newline (the shape of the union
variant's notes) has no trailing blank line. -/
theorem noTrailingBlankLine_end (a : String) :
    noTrailingBlankLine (a ++ "`" ++ "\n") := by
  intro h
  have hd : (a ++ "`" ++ "\n").data = a.data ++ ['`'] ++ ['\n'] := by
    simp [String.data_append]
  rw [hd]
  simp [List.reverse_append]

set_option maxRecDepth 8000 in
/-- C5. For every `ErrorKind` variant (with newline-free payloads, which
are interpolated verbatim), `description` is total and returns a
single-line string with no trailing newline (it contains no newline at
all), and `notes` returns either `none` or a nonempty string with no
leading and no trailing blank line. -/
theorem description_single_line_notes_shape :
    ∀ k : ErrorKind, payloadNewlineFree k →
      '\n' ∉ (description k).data ∧
      (∀ n, notes k = some n → n ≠ "" ∧ noLeadingBlankLine n ∧ noTrailingBlankLine n) := by
  have hbq : "`".data = ['`'] := rfl
  intro k hk
  cases k with
  | UnsupportedAttribute attr =>
    have ha : '\n' ∉ attr.data := hk attr (by simp [ErrorKind.payloads])
    refine ⟨?_, ?_⟩
    · intro hmem
      simp only [description, String.data_append, List.mem_append] at hmem
      rcases hmem with (h | h) | h
      · exact absurd h (by decide)
      · exact ha h
      · exact absurd h (by decide)
    · intro n hn
      simp [notes] at hn
  | UnsupportedAttributePair attr value =>
    have ha : '\n' ∉ attr.data := hk attr (by simp [ErrorKind.payloads])
    have hv : '\n' ∉ value.data := hk value (by simp [ErrorKind.payloads])
    refine ⟨?_, ?_⟩
    · intro hmem
      simp only [description, String.data_append, List.mem_append] at hmem
      rcases hmem with (((h | h) | h) | h) | h
      · exact absurd h (by decide)
      · exact hv h
      · exact absurd h (by decide)
      · exact ha h
      · exact absurd h (by decide)
    · intro n hn
      simp [notes] at hn
  | UnionFieldTypeMismatch u f ta fta tb ftb =>
    have hu : '\n' ∉ u.data := hk u (by simp [ErrorKind.payloads])
    refine ⟨?_, ?_⟩
    · intro hmem
      simp only [description, String.data_append, List.mem_append] at hmem
      rcases hmem with (h | h) | h
      · exact absurd h (by decide)
      · exact hu h
      · exact absurd h (by decide)
    · intro n hn
      simp only [notes, Option.some.injEq] at hn
      subst hn
      refine ⟨?_, ?_, noTrailingBlankLine_end _⟩
      · intro h
        have hdat := congrArg String.data h
        simp only [String.data_append, hbq, List.cons_append, List.append_assoc] at hdat
        exact absurd hdat (by simp)
      · show _ ≠ _
        simp only [String.data_append, hbq, List.cons_append, List.append_assoc,
          List.head?_cons]
        decide
  | DateTimeScalarNotDefined =>
    refine ⟨by decide, ?_⟩
    intro n hn
    simp only [notes, Option.some.injEq] at hn
    subst hn
    exact ⟨by decide, by decide, by decide⟩
  | DateScalarNotDefined =>
    refine ⟨by decide, ?_⟩
    intro n hn
    simp only [notes, Option.some.injEq] at hn
    subst hn
    exact ⟨by decide, by decide, by decide⟩
  | SubscriptionsNotSupported =>
    refine ⟨by decide, ?_⟩
    intro n hn
    simp only [notes, Option.some.injEq] at hn
    subst hn
    exact ⟨by decide, by decide, by decide⟩
  | DirectivesNotSupported =>
    exact ⟨by decide, by intro n hn; simp [notes] at hn⟩
  | NoQueryType =>
    exact ⟨by decide, by intro n hn; simp [notes] at hn⟩
  | NonnullableFieldWithDefaultValue =>
    exact ⟨by decide, by intro n hn; simp [notes] at hn⟩
  | NullDefaultValue =>
    exact ⟨by decide, by intro n hn; simp [notes] at hn⟩
  | ObjectArgumentWithDefaultValue =>
    exact ⟨by decide, by intro n hn; simp [notes] at hn⟩
  | TypeExtensionNotSupported =>
    exact ⟨by decide, by intro n hn; simp [notes] at hn⟩
  | VariableDefaultValue =>
    exact ⟨by decide, by intro n hn; simp [notes] at hn⟩

/-- Witness for C5 at the union variant with payloads
`Foo`, `bar`, `A`, `Int`, `B`, `String`. -/
theorem description_single_line_notes_shape_witness :
    '\n' ∉ (description (.UnionFieldTypeMismatch "Foo" "bar" "A" "Int" "B" "String")).data ∧
    (∀ n, notes (.UnionFieldTypeMismatch "Foo" "bar" "A" "Int" "B" "String") = some n →
      n ≠ "" ∧ noLeadingBlankLine n ∧ noTrailingBlankLine n) :=
  description_single_line_notes_shape
    (.UnionFieldTypeMismatch "Foo" "bar" "A" "Int" "B" "String") (by decide)

/-- `sub` occurs contiguously inside `s` (substring containment at the
character level). -/
def containsSub (s sub : String) : Prop :=
  ∃ pre post, s.data = pre ++ sub.data ++ post

theorem containsSub_of_data (s x : String) (pre post : List Char)
    (h : s.data = pre ++ x.data ++ post) : containsSub s x :=
  ⟨pre, post, h⟩

theorem containsSub_end (a x : String) : containsSub (a ++ x) x :=
  ⟨a.data, [], by simp [String.data_append]⟩

theorem containsSub_mono_left (a b x : String) (h : containsSub a x) :
    containsSub (a ++ b) x := by
  obtain ⟨p, q, hp⟩ := h
  exact ⟨p, q ++ b.data, by simp [String.data_append, hp, List.append_assoc]⟩

set_option maxRecDepth 8000 in
/-- C6. For the union-field-type-mismatch variant with union name `u`,
field `f`, concrete types `ta`/`tb` and field types `fta`/`ftb`:
`description` contains `u`, and `notes` contains `ta`, `tb`, `f`, `fta`,
`ftb`, and explicitly states the two conflicting return types the
generated `QueryTrail` accessor method would need. -/
theorem union_mismatch_message_payload :
    ∀ u f ta fta tb ftb : String,
      containsSub (description (.UnionFieldTypeMismatch u f ta fta tb ftb)) u ∧
      ∃ n, notes (.UnionFieldTypeMismatch u f ta fta tb ftb) = some n ∧
        containsSub n ta ∧ containsSub n tb ∧ containsSub n f ∧
        containsSub n fta ∧ containsSub n ftb ∧
        containsSub n ("It would have to return `" ++ fta ++ "` if `" ++ u ++ "` is `" ++
          ta ++ ",` but `" ++ ftb ++ "` if it is a `" ++ tb ++ "`") := by
  intro u f ta fta tb ftb
  constructor
  · exact containsSub_of_data _ _ ("Error while generating `QueryTrail` for union `").data
      ("`").data (by simp [description, String.data_append, List.append_assoc])
  · refine ⟨_, rfl, ?_, ?_, ?_, ?_, ?_, ?_⟩
    · repeat (first | exact containsSub_end _ _ | apply containsSub_mono_left)
    · repeat (first | exact containsSub_end _ _ | apply containsSub_mono_left)
    · repeat (first | exact containsSub_end _ _ | apply containsSub_mono_left)
    · repeat (first | exact containsSub_end _ _ | apply containsSub_mono_left)
    · repeat (first | exact containsSub_end _ _ | apply containsSub_mono_left)
    · exact containsSub_of_data _ _
        (("`" ++ ta ++ "." ++ f ++ "` and `" ++ tb ++ "." ++ f ++ "` are not the same type" ++
          "\n" ++
          "    `" ++ ta ++ "." ++ f ++ "` is of type `" ++ fta ++ "`" ++ "\n" ++
          "    `" ++ tb ++ "." ++ f ++ "` is of type `" ++ ftb ++ "`" ++ "\n" ++
          "That makes it impossible to generate code for the method `QueryTrail<_, " ++
          u ++ ", _>::" ++ f ++ "()`" ++ "\n").data)
        (("\n").data)
        (by simp [String.data_append, List.append_assoc])

/-- Variant discriminant in source declaration order: the derived Rust
`Ord` on an enum compares discriminants first. -/
def ErrorKind.discr : ErrorKind → Nat
  | .DateTimeScalarNotDefined => 0
  | .DateScalarNotDefined => 1
  | .DirectivesNotSupported => 2
  | .NoQueryType => 3
  | .NonnullableFieldWithDefaultValue => 4
  | .NullDefaultValue => 5
  | .ObjectArgumentWithDefaultValue => 6
  | .SubscriptionsNotSupported => 7
  | .TypeExtensionNotSupported => 8
  | .UnionFieldTypeMismatch .. => 9
  | .UnsupportedAttribute _ => 10
  | .UnsupportedAttributePair .. => 11
  | .VariableDefaultValue => 12

/-- The comparison key of the derived `Ord` for `Error` (`derive(Ord)` on
`Error` with fields `pos`, `kind`, `raw_schema`, and on `ErrorKind`):
lexicographically position line, position column (`graphql_parser::Pos`
derives `Ord` over its fields `line`, `column`), kind discriminant, kind
payload fields in declaration order (equal-length lists within a variant,
so list-lexicographic order coincides with Rust's field-wise comparison),
and finally the `raw_schema` reference's string content.  Rust orders
`&str` by UTF-8 bytes, which coincides with the code-point order used by
Lean's `String` order. -/
def errorKey (e : Error) : ℕ ×ₗ (ℕ ×ₗ (ℕ ×ₗ ((List String) ×ₗ String))) :=
  toLex (e.pos.line,
    toLex (e.pos.column,
      toLex (e.kind.discr, toLex (e.kind.payloads, e.raw_schema))))

/-- The derived `Ord`'s `≤` on `Error` values. -/
def errorLE (a b : Error) : Prop :=
  errorKey a ≤ errorKey b

theorem ErrorKind.discr_payloads_inj :
    ∀ k₁ k₂ : ErrorKind, k₁.discr = k₂.discr → k₁.payloads = k₂.payloads → k₁ = k₂ := by
  intro k₁ k₂ h1 h2
  cases k₁ <;> cases k₂ <;> simp_all [ErrorKind.discr, ErrorKind.payloads]

theorem errorKey_inj : ∀ a b : Error, errorKey a = errorKey b → a = b := by
  intro a b h
  unfold errorKey at h
  simp only [toLex_inj, Prod.mk.injEq] at h
  obtain ⟨h1, h2, h3, h4, h5⟩ := h
  rcases a with ⟨⟨al, ac⟩, ak, ar⟩
  rcases b with ⟨⟨bl, bc⟩, bk, br⟩
  have hk := ErrorKind.discr_payloads_inj ak bk h3 h4
  simp_all

/-- C8. `Error` values are totally ordered — by position, then kind (then,
as a final tiebreak the derived ordering also consults the raw schema
text, which is constant across a collection gathered over one source
text): the order is antisymmetric, transitive and total, so sorting a
collection of errors yields a deterministic order. -/
theorem error_order_total :
    (∀ a b : Error, errorLE a b → errorLE b a → a = b) ∧
    (∀ a b c : Error, errorLE a b → errorLE b c → errorLE a c) ∧
    (∀ a b : Error, errorLE a b ∨ errorLE b a) :=
  ⟨fun a b h h' => errorKey_inj a b (le_antisymm h h'),
   fun _ _ _ h h' => le_trans h h',
   fun a b => le_total (errorKey a) (errorKey b)⟩

/-- Witness for C8: antisymmetry applied at a concrete error (both `≤`
hypotheses discharged by reflexivity of the key order), and totality at a
concrete pair. -/
theorem error_order_total_witness :
    (⟨⟨1, 1⟩, .NoQueryType, "a"⟩ : Error) = ⟨⟨1, 1⟩, .NoQueryType, "a"⟩ ∧
    (errorLE ⟨⟨1, 1⟩, .NoQueryType, "a"⟩ ⟨⟨2, 1⟩, .DirectivesNotSupported, "a"⟩ ∨
     errorLE ⟨⟨2, 1⟩, .DirectivesNotSupported, "a"⟩ ⟨⟨1, 1⟩, .NoQueryType, "a"⟩) :=
  ⟨error_order_total.1 _ _ (le_refl _) (le_refl _),
   error_order_total.2.2 _ _⟩

end AstPassError
